import Mathlib

/-!
Shallow embedding of the extractive summarization core of `src/app.py`
(the `summarize` route, lines 134-154), together with small executable
models of its external collaborators (sentence tokenizer, word tokenizer,
English stop-word list), which live in the NLTK library rather than in
this repository and are therefore modelled from the specification.

Conventions of the embedding:
  - Python strings are Lean `String`s; `str.lower()` is `pyLower`,
    `str.isalnum()` is `pyIsAlnum`, and `not text.strip()` is `pyIsBlank`.
  - `Counter(words)` is represented by `List.count` over the list of
    retained content words: `w in word_freq` is `count w != 0`, and
    `word_freq[w]` is `count w`.
  - Python float division of two ints becomes exact division in `ℚ`.
  - Python `sorted(..., key=lambda x: x[1], reverse=True)` is a stable
    descending sort on the second component, embedded as
    `List.insertionSort scoreGE` (Mathlib's insertion sort is stable,
    like Python's sort, so both produce the unique stable result).
  - The two `return ..., 400` error paths become an `Except` error value.
-/

/-- Python `str.isalnum()` restricted to ASCII input: true iff the string is
nonempty and every character is alphanumeric. -/
def pyIsAlnum (s : String) : Bool :=
  !s.isEmpty && s.toList.all Char.isAlphanum

/-- Python `str.lower()` restricted to ASCII input: lower-case each character. -/
def pyLower (s : String) : String :=
  s.map Char.toLower

/-- Python whitespace characters stripped by `str.strip()` (ASCII range). -/
def pyIsSpace (c : Char) : Bool :=
  c = ' ' || c = '\t' || c = '\n' || c = '\x0d' || c = '\x0b' || c = '\x0c'

/-- Python `not text.strip()`: true iff the string is empty or whitespace-only. -/
def pyIsBlank (s : String) : Bool :=
  s.toList.all pyIsSpace

/-- The two input errors the route can raise before any summary is computed:
`blankText` is the `"Please enter some text.", 400` response (app.py line 139)
and `insufficientSentences` is `"Please enter at least two sentences.", 400`
(app.py line 142). -/
inductive InputError where
  | blankText
  | insufficientSentences
deriving DecidableEq, Repr

/-- External tokenization collaborators of the core: NLTK `sent_tokenize`,
`word_tokenize` and `stopwords.words("english")` are consumed by `summarize`
but are not code of this repository, so the core is parameterized over them. -/
structure Tokenizer where
  sentTok : String → List String
  wordTok : String → List String
  stopWords : List String

/-- Embedding of app.py line 146:
`[w.lower() for w in word_tokenize(text) if w.isalnum() and w.lower() not in stop_words]`. -/
def contentWords (T : Tokenizer) (text : String) : List String :=
  ((T.wordTok text).filter
    (fun w => pyIsAlnum w && !(T.stopWords.contains (pyLower w)))).map pyLower

/-- Embedding of app.py line 147, `word_freq = Counter(words)`: the count of a
normalized word among the document's content words (0 when absent, exactly as
`Counter.__getitem__` returns 0 for a missing key). -/
def wordFreq (T : Tokenizer) (text : String) (w : String) : Nat :=
  (contentWords T text).count w

/-- Numerator of app.py line 150:
`sum(word_freq[w.lower()] for w in word_tokenize(sent) if w.isalnum() and w.lower() in word_freq)`.
Membership of `w.lower()` in the Counter is `wordFreq ... != 0`, since every
key of `Counter(words)` occurs at least once in `words`. -/
def scoreNumerator (T : Tokenizer) (text sent : String) : Nat :=
  (((T.wordTok sent).filter
      (fun w => pyIsAlnum w && wordFreq T text (pyLower w) != 0)).map
    (fun w => wordFreq T text (pyLower w))).sum

/-- Embedding of app.py line 151:
`sentence_scores[i] = score / (len(word_tokenize(sent)) + 1)`, with Python
float division rendered as exact division in `ℚ`. -/
def sentenceScore (T : Tokenizer) (text sent : String) : ℚ :=
  (scoreNumerator T text sent : ℚ) / ((T.wordTok sent).length + 1)

/-- Modelled from the spec: the Sentence Scorer contract of spec section 4.3,
written from the specification words — "for each word token in the sentence
(alphanumeric, lower-cased) that appears in the FrequencyTable, sum its
occurrence count; divide the sum by (word_count_of_sentence + 1)". Used only
to compare against `sentenceScore`, which is embedded from the code. -/
def specScore (T : Tokenizer) (table : String → Nat) (sent : String) : ℚ :=
  (((T.wordTok sent).filter
      (fun w => pyIsAlnum w && table (pyLower w) != 0)).map
    (fun w => (table (pyLower w) : ℚ))).sum / ((T.wordTok sent).length + 1)

/-- Embedding of the inner part of app.py line 152:
`sorted(sentence_scores.items(), key=lambda x: x[0])[:summary_sentences]`.
The dict `sentence_scores` has keys `0..n-1`, so sorting its items by key
yields the index-ordered list of `(index, score)` pairs; slicing takes the
first `count` of them. -/
def candidatePool (T : Tokenizer) (text : String) (count : Nat) :
    List (Nat × ℚ) :=
  ((List.range (T.sentTok text).length).map
    (fun i => (i, sentenceScore T text ((T.sentTok text).getD i "")))).take count

/-- Comparison used by the outer sort of app.py line 152
(`key=lambda x: x[1], reverse=True`): descending by score. -/
def scoreGE (a b : Nat × ℚ) : Prop :=
  b.2 ≤ a.2

instance : DecidableRel scoreGE := fun a b =>
  inferInstanceAs (Decidable (b.2 ≤ a.2))

instance : IsTotal (Nat × ℚ) scoreGE :=
  ⟨fun a b => le_total b.2 a.2⟩

instance : IsTrans (Nat × ℚ) scoreGE :=
  ⟨fun _ _ _ h1 h2 => le_trans h2 h1⟩

/-- Embedding of the `summarize` route of app.py, lines 135-154, for a POST
request carrying `text` and a non-negative `summary_sentences` count.
Python's `sorted` is stable, and `List.insertionSort` is stable, so the
descending sort of the candidate pool is embedded faithfully; the route
finally renders `summary` (line 153) joined by newlines, which we keep as
the list of selected sentence strings. -/
def summarize (T : Tokenizer) (text : String) (count : Nat) :
    Except InputError (List String) :=
  if pyIsBlank text then .error .blankText
  else
    let sentences := T.sentTok text
    if sentences.length < 2 then .error .insufficientSentences
    else if sentences.length ≤ count then .ok sentences
    else
      let top := List.insertionSort scoreGE (candidatePool T text count)
      .ok (top.map (fun p => sentences.getD p.1 ""))

/-- Modelled from the spec: NLTK `sent_tokenize` is an external collaborator
(spec section 6); per section 4.1 it deterministically splits text into
sentences at sentence-ending punctuation. This model ends a sentence at
`.`, `!` or `?` (keeping the punctuation) and skips the whitespace between
sentences, which agrees with NLTK on text free of abbreviations. -/
def specSentTokAux : List Char → List Char → List String
  | [], acc => if acc.isEmpty then [] else [String.mk acc.reverse]
  | c :: rest, acc =>
    if c = '.' || c = '!' || c = '?' then
      String.mk (c :: acc).reverse :: specSentTokAux rest []
    else if acc.isEmpty && pyIsSpace c then
      specSentTokAux rest []
    else
      specSentTokAux rest (c :: acc)

/-- Modelled from the spec: sentence-boundary tokenizer entry point (see
`specSentTokAux`). -/
def specSentTok (s : String) : List String :=
  specSentTokAux s.toList []

/-- Modelled from the spec: NLTK `word_tokenize` is an external collaborator
(spec section 6); per section 4.1 it separates on whitespace and punctuation,
yielding word tokens and punctuation-only tokens. This model groups maximal
alphanumeric runs as word tokens and emits each other non-space character as
its own token, which agrees with NLTK on simple text. -/
def specWordTokAux : List Char → List Char → List String
  | [], acc => if acc.isEmpty then [] else [String.mk acc.reverse]
  | c :: rest, acc =>
    if c.isAlphanum then
      specWordTokAux rest (c :: acc)
    else
      let flushed := if acc.isEmpty then [] else [String.mk acc.reverse]
      if pyIsSpace c then
        flushed ++ specWordTokAux rest []
      else
        flushed ++ String.singleton c :: specWordTokAux rest []

/-- Modelled from the spec: word tokenizer entry point (see `specWordTokAux`). -/
def specWordTok (s : String) : List String :=
  specWordTokAux s.toList []

/-- Modelled from the spec: the fixed English stop-word list loaded once at
process start (`stopwords.words("english")`), a set of high-frequency
function words; a representative subset of the standard NLTK list. -/
def stopWordsEN : List String :=
  ["i", "me", "my", "we", "our", "you", "he", "she", "it", "its", "they",
   "them", "the", "a", "an", "and", "or", "but", "if", "of", "at", "by",
   "for", "with", "to", "from", "in", "on", "is", "are", "was", "were",
   "be", "been", "being", "have", "has", "had", "do", "does", "did",
   "not", "no", "so", "than", "too", "very", "can", "will", "just"]

/-- The concrete tokenizer model used for concrete inputs. -/
def mdl : Tokenizer :=
  { sentTok := specSentTok, wordTok := specWordTok, stopWords := stopWordsEN }

/-! Helper lemmas characterizing the four control-flow branches of
`summarize` (app.py lines 138-154). -/

theorem summarize_blank {T : Tokenizer} {text : String} {k : Nat}
    (h : pyIsBlank text = true) :
    summarize T text k = .error .blankText := by
  simp [summarize, h]

theorem summarize_short {T : Tokenizer} {text : String} {k : Nat}
    (hb : pyIsBlank text = false) (h2 : (T.sentTok text).length < 2) :
    summarize T text k = .error .insufficientSentences := by
  simp [summarize, hb, h2]

theorem summarize_pass {T : Tokenizer} {text : String} {k : Nat}
    (hb : pyIsBlank text = false) (h2 : 2 ≤ (T.sentTok text).length)
    (hk : (T.sentTok text).length ≤ k) :
    summarize T text k = .ok (T.sentTok text) := by
  simp [summarize, hb, Nat.not_lt.mpr h2, hk]

theorem summarize_scoring {T : Tokenizer} {text : String} {k : Nat}
    (hb : pyIsBlank text = false) (h2 : 2 ≤ (T.sentTok text).length)
    (hk : k < (T.sentTok text).length) :
    summarize T text k =
      .ok ((List.insertionSort scoreGE (candidatePool T text k)).map
        (fun p => (T.sentTok text).getD p.1 "")) := by
  simp [summarize, hb, Nat.not_lt.mpr h2, Nat.not_le.mpr hk]

theorem summarize_ok_elim {T : Tokenizer} {text : String} {k : Nat}
    {out : List String} (h : summarize T text k = .ok out) :
    pyIsBlank text = false ∧ 2 ≤ (T.sentTok text).length := by
  by_cases hb : pyIsBlank text = true
  · rw [summarize_blank hb] at h
    exact absurd h (by simp)
  · have hb0 : pyIsBlank text = false := by simpa using hb
    by_cases h2 : (T.sentTok text).length < 2
    · rw [summarize_short hb0 h2] at h
      exact absurd h (by simp)
    · exact ⟨hb0, Nat.not_lt.mp h2⟩

theorem candidatePool_eq (T : Tokenizer) (text : String) (k : Nat) :
    candidatePool T text k =
      (List.range (min k (T.sentTok text).length)).map
        (fun i => (i, sentenceScore T text ((T.sentTok text).getD i ""))) := by
  unfold candidatePool
  rw [← List.map_take, List.take_range]

theorem candidatePool_length (T : Tokenizer) (text : String) (k : Nat) :
    (candidatePool T text k).length = min k (T.sentTok text).length := by
  rw [candidatePool_eq]
  simp

theorem candidatePool_mem_elim {T : Tokenizer} {text : String} {k : Nat}
    {p : Nat × ℚ} (h : p ∈ candidatePool T text k) :
    p.1 < k ∧ p.1 < (T.sentTok text).length ∧
      p.2 = sentenceScore T text ((T.sentTok text).getD p.1 "") := by
  rw [candidatePool_eq] at h
  simp only [List.mem_map, List.mem_range] at h
  obtain ⟨i, hi, rfl⟩ := h
  exact ⟨lt_of_lt_of_le hi (min_le_left _ _),
    lt_of_lt_of_le hi (min_le_right _ _), rfl⟩

theorem top_mem_elim {T : Tokenizer} {text : String} {k : Nat} {p : Nat × ℚ}
    (h : p ∈ List.insertionSort scoreGE (candidatePool T text k)) :
    p.1 < k ∧ p.1 < (T.sentTok text).length ∧
      p.2 = sentenceScore T text ((T.sentTok text).getD p.1 "") :=
  candidatePool_mem_elim
    (((List.perm_insertionSort scoreGE (candidatePool T text k)).mem_iff).mp h)

/-- C1 (counterexample): the output of `summarize` is NOT returned in original
document order. On the text below the candidate pool is sentences 0 and 1;
sentence 1 has the strictly higher score, and the code emits it first, so the
output is score-descending order, not document order. -/
theorem C1_doc_order_counterexample :
    specSentTok "Alpha beta. Cats cats cats. Cats cats run." =
      ["Alpha beta.", "Cats cats cats.", "Cats cats run."] ∧
    summarize mdl "Alpha beta. Cats cats cats. Cats cats run." 2 =
      Except.ok ["Cats cats cats.", "Alpha beta."] ∧
    summarize mdl "Alpha beta. Cats cats cats. Cats cats run." 2 ≠
      Except.ok ["Alpha beta.", "Cats cats cats."] := by
  refine ⟨by with_unfolding_all rfl, by with_unfolding_all rfl, ?_⟩
  have h : summarize mdl "Alpha beta. Cats cats cats. Cats cats run." 2 =
      Except.ok ["Cats cats cats.", "Alpha beta."] := by with_unfolding_all rfl
  rw [h]
  simp

/-- C1 (amended): whenever the text has more sentences than the requested
count, the sentences returned by `summarize` appear in non-increasing score
order (descending score, ties keeping ascending document order by stability
of the sort) — score order decides presentation, not just selection. -/
theorem C1_score_order (T : Tokenizer) (text : String) (k : Nat)
    (out : List String) (hk : k < (T.sentTok text).length)
    (h : summarize T text k = .ok out) :
    out.Pairwise (fun a b =>
      sentenceScore T text b ≤ sentenceScore T text a) := by
  obtain ⟨hb, h2⟩ := summarize_ok_elim h
  rw [summarize_scoring hb h2 hk] at h
  injection h with h
  subst h
  rw [List.pairwise_map]
  refine (List.sorted_insertionSort scoreGE (candidatePool T text k)).imp_of_mem ?_
  intro a b ha hb2 hab
  obtain ⟨-, -, hA⟩ := top_mem_elim ha
  obtain ⟨-, -, hB⟩ := top_mem_elim hb2
  rw [← hA, ← hB]
  exact hab

/-- C1 (witness for the amended theorem): instantiation at a concrete text
with three sentences and requested count two. -/
theorem C1_score_order_witness :
    (["Cats cats cats.", "Alpha beta."] : List String).Pairwise
      (fun a b =>
        sentenceScore mdl "Alpha beta. Cats cats cats. Cats cats run." b ≤
          sentenceScore mdl "Alpha beta. Cats cats cats. Cats cats run." a) := by
  have hlen : (mdl.sentTok "Alpha beta. Cats cats cats. Cats cats run.").length = 3 := by
    with_unfolding_all rfl
  exact C1_score_order mdl "Alpha beta. Cats cats cats. Cats cats run." 2
    ["Cats cats cats.", "Alpha beta."] (by omega) (by with_unfolding_all rfl)

/-- C2 (counterexample): on the spec's concrete scenario the code does not
return the claimed original-document order. -/
theorem C2_doc_order_counterexample :
    summarize mdl "The cat sat. The cat ate fish. Dogs bark loudly. Fish swim fast." 2 ≠
      Except.ok ["The cat sat.", "The cat ate fish."] := by
  have h : summarize mdl
      "The cat sat. The cat ate fish. Dogs bark loudly. Fish swim fast." 2 =
      Except.ok ["The cat ate fish.", "The cat sat."] := by with_unfolding_all rfl
  rw [h]
  simp

/-- C2 (amended): on the concrete scenario text with requested count 2 the
code keeps exactly sentences 0 and 1 (the positional pool) but returns them
in descending score order, score 5/6 before score 3/5: it returns
the two sentences as the list with the second document sentence first. -/
theorem C2_concrete_scenario :
    summarize mdl "The cat sat. The cat ate fish. Dogs bark loudly. Fish swim fast." 2 =
      Except.ok ["The cat ate fish.", "The cat sat."] := by
  with_unfolding_all rfl

/-- C3: pass-through law — if the text is not blank and tokenizes into at
least 2 and at most `k` sentences, `summarize` returns all sentences in
original order (app.py lines 143-144), with no scoring performed. -/
theorem C3_pass_through (T : Tokenizer) (text : String) (k : Nat)
    (hb : pyIsBlank text = false) (h2 : 2 ≤ (T.sentTok text).length)
    (hk : (T.sentTok text).length ≤ k) :
    summarize T text k = .ok (T.sentTok text) :=
  summarize_pass hb h2 hk

/-- C3 (witness): a two-sentence text with requested count 2 is returned
whole, in original order. -/
theorem C3_pass_through_witness :
    summarize mdl "Hi there. Bye now." 2 = Except.ok ["Hi there.", "Bye now."] := by
  have hlen : (mdl.sentTok "Hi there. Bye now.").length = 2 := by
    with_unfolding_all rfl
  have h := C3_pass_through mdl "Hi there. Bye now." 2
    (by with_unfolding_all rfl) (by omega) (by omega)
  rw [h]
  with_unfolding_all rfl

/-- C4: guard taxonomy — `summarize` fails with `blankText` exactly on
blank input, fails with `insufficientSentences` exactly on non-blank input
with fewer than 2 sentences (so a single sentence is refused, never returned
as its own summary), and succeeds in every other case (no further error
originates in the core once the two guards pass). -/
theorem C4_guard_taxonomy (T : Tokenizer) (text : String) (k : Nat) :
    (summarize T text k = .error .blankText ↔ pyIsBlank text = true) ∧
    (summarize T text k = .error .insufficientSentences ↔
      pyIsBlank text = false ∧ (T.sentTok text).length < 2) ∧
    ((∃ out, summarize T text k = .ok out) ↔
      pyIsBlank text = false ∧ 2 ≤ (T.sentTok text).length) := by
  by_cases hb : pyIsBlank text = true
  · simp [summarize_blank hb, hb]
  · have hb0 : pyIsBlank text = false := by simpa using hb
    by_cases h2 : (T.sentTok text).length < 2
    · simp [summarize_short hb0 h2, hb0, h2]
    · push_neg at h2
      by_cases hk : (T.sentTok text).length ≤ k
      · simp [summarize_pass hb0 h2 hk, hb0, Nat.not_lt.mpr h2, h2]
      · push_neg at hk
        simp [summarize_scoring hb0 h2 hk, hb0, Nat.not_lt.mpr h2, h2]

/-- C4 (witness): the empty text is refused as blank, and a one-sentence
text is refused as having insufficient sentences. -/
theorem C4_guard_taxonomy_witness :
    summarize mdl "" 2 = Except.error InputError.blankText ∧
    summarize mdl "One sentence only." 3 =
      Except.error InputError.insufficientSentences := by
  constructor
  · exact (C4_guard_taxonomy mdl "" 2).1.mpr (by with_unfolding_all rfl)
  · refine (C4_guard_taxonomy mdl "One sentence only." 3).2.1.mpr
      ⟨by with_unfolding_all rfl, ?_⟩
    have hlen : (mdl.sentTok "One sentence only.").length = 1 := by
      with_unfolding_all rfl
    omega

/-- C5: positional ceiling — when the text has more sentences than the
requested count `k`, every sentence in the output is one of the earliest
`k` sentences of the document; a sentence with document index at least `k`
can never be selected regardless of its score. -/
theorem C5_positional_ceiling (T : Tokenizer) (text : String) (k : Nat)
    (out : List String) (hk : k < (T.sentTok text).length)
    (h : summarize T text k = .ok out)
    (s : String) (hs : s ∈ out) :
    s ∈ (T.sentTok text).take k := by
  obtain ⟨hb, h2⟩ := summarize_ok_elim h
  rw [summarize_scoring hb h2 hk] at h
  injection h with h
  subst h
  rw [List.mem_map] at hs
  obtain ⟨p, hp, rfl⟩ := hs
  obtain ⟨hpk, hpn, -⟩ := top_mem_elim hp
  have hlt : p.1 < ((T.sentTok text).take k).length := by
    rw [List.length_take]
    exact lt_min hpk hpn
  have he : ((T.sentTok text).take k)[p.1] = (T.sentTok text)[p.1] :=
    List.getElem_take (T.sentTok text)
  rw [List.getD_eq_getElem _ _ hpn, ← he]
  exact List.getElem_mem _

/-- C5 (witness): on a three-sentence text with count 2, the selected
high-scoring sentence indeed lies among the first two sentences. -/
theorem C5_positional_ceiling_witness :
    "Cats cats cats." ∈
      (mdl.sentTok "Alpha beta. Cats cats cats. Cats cats run.").take 2 := by
  have hlen : (mdl.sentTok "Alpha beta. Cats cats cats. Cats cats run.").length = 3 := by
    with_unfolding_all rfl
  exact C5_positional_ceiling mdl "Alpha beta. Cats cats cats. Cats cats run." 2
    ["Cats cats cats.", "Alpha beta."] (by omega) (by with_unfolding_all rfl)
    "Cats cats cats." (by simp)

/-- C6: scoring semantics — the code's sentence score agrees with the
spec-worded formula (sum of table counts of the sentence's alphanumeric,
lower-cased tokens that appear in the table, divided by word count plus one),
is non-negative, and is zero for a sentence whose every token is either
non-alphanumeric or absent from the frequency table (in particular one made
only of stop words, which never enter the table). -/
theorem C6_score_semantics (T : Tokenizer) (text sent : String) :
    sentenceScore T text sent = specScore T (wordFreq T text) sent ∧
    0 ≤ sentenceScore T text sent ∧
    ((∀ w ∈ T.wordTok sent,
        pyIsAlnum w = false ∨ wordFreq T text (pyLower w) = 0) →
      sentenceScore T text sent = 0) := by
  refine ⟨?_, ?_, ?_⟩
  · unfold sentenceScore specScore scoreNumerator
    congr 1
    rw [Nat.cast_list_sum, List.map_map]
    rfl
  · exact div_nonneg (Nat.cast_nonneg _) (by positivity)
  · intro hw
    have hfil : (T.wordTok sent).filter
        (fun w => pyIsAlnum w && wordFreq T text (pyLower w) != 0) = [] := by
      rw [List.filter_eq_nil_iff]
      intro w hwm
      rcases hw w hwm with h1 | h1 <;> simp [h1]
    have hnum : scoreNumerator T text sent = 0 := by
      unfold scoreNumerator
      rw [hfil]
      rfl
    unfold sentenceScore
    rw [hnum]
    simp

/-- C6 (witness): a sentence made only of stop words and punctuation
receives score zero. -/
theorem C6_score_semantics_witness :
    sentenceScore mdl "The of. A an." "The of." = 0 :=
  (C6_score_semantics mdl "The of. A an." "The of.").2.2
    (of_decide_eq_true (by with_unfolding_all rfl))

/-- C7: count bound — the number of sentences returned never exceeds
`max k total_sentences`, and never exceeds the size of the candidate pool
(all sentences in the pass-through case, the earliest `k` sentences
otherwise). -/
theorem C7_count_bound (T : Tokenizer) (text : String) (k : Nat)
    (out : List String) (h : summarize T text k = .ok out) :
    out.length ≤ max k (T.sentTok text).length ∧
    out.length ≤ (if (T.sentTok text).length ≤ k then (T.sentTok text).length
      else (candidatePool T text k).length) := by
  obtain ⟨hb, h2⟩ := summarize_ok_elim h
  by_cases hk : (T.sentTok text).length ≤ k
  · rw [summarize_pass hb h2 hk] at h
    injection h with h
    subst h
    rw [if_pos hk]
    exact ⟨le_max_right _ _, le_refl _⟩
  · push_neg at hk
    rw [summarize_scoring hb h2 hk] at h
    injection h with h
    subst h
    rw [if_neg (by omega)]
    have hl : (List.insertionSort scoreGE (candidatePool T text k)).length =
        (candidatePool T text k).length :=
      (List.perm_insertionSort scoreGE (candidatePool T text k)).length_eq
    rw [List.length_map, hl]
    refine ⟨?_, le_refl _⟩
    rw [candidatePool_length]
    exact le_trans (min_le_left _ _) (le_max_left _ _)

/-- C7 (witness): instantiation on a three-sentence text with count 2,
whose output has the two pool sentences. -/
theorem C7_count_bound_witness :
    (["Cats cats cats.", "Alpha beta."] : List String).length ≤
      max 2 (mdl.sentTok "Alpha beta. Cats cats cats. Cats cats run.").length ∧
    (["Cats cats cats.", "Alpha beta."] : List String).length ≤
      (if (mdl.sentTok "Alpha beta. Cats cats cats. Cats cats run.").length ≤ 2 then
        (mdl.sentTok "Alpha beta. Cats cats cats. Cats cats run.").length
      else (candidatePool mdl "Alpha beta. Cats cats cats. Cats cats run." 2).length) :=
  C7_count_bound mdl "Alpha beta. Cats cats cats. Cats cats run." 2
    ["Cats cats cats.", "Alpha beta."] (by with_unfolding_all rfl)

/-- C8: determinism — `summarize` is a pure function of its arguments, so
two invocations with identical text and count yield identical output; no
randomness occurs in tokenization, frequency counting, scoring or
selection. -/
theorem C8_deterministic (T : Tokenizer) (text : String) (k : Nat) :
    summarize T text k = summarize T text k :=
  rfl

/-- C9: the requested count is never validated to be positive — on a
non-blank text with at least two sentences, a requested count of zero
produces the empty summary with no error raised (the positional slice
`[:0]` empties the candidate pool). -/
theorem C9_zero_count_ok (T : Tokenizer) (text : String)
    (hb : pyIsBlank text = false) (h2 : 2 ≤ (T.sentTok text).length) :
    summarize T text 0 = .ok [] := by
  have h0 : 0 < (T.sentTok text).length := by omega
  rw [summarize_scoring hb h2 h0]
  have hp : candidatePool T text 0 = [] := by
    rw [candidatePool_eq]
    simp
  rw [hp]
  rfl

/-- C9 (witness): requesting zero sentences of a three-sentence text
returns the empty summary. -/
theorem C9_zero_count_ok_witness :
    summarize mdl "Alpha beta. Cats cats cats. Cats cats run." 0 = Except.ok [] := by
  have hlen : (mdl.sentTok "Alpha beta. Cats cats cats. Cats cats run.").length = 3 := by
    with_unfolding_all rfl
  exact C9_zero_count_ok mdl "Alpha beta. Cats cats cats. Cats cats run."
    (by with_unfolding_all rfl) (by omega)

/-- C10 (counterexample): the claimed strictness fails when the shared
content words contribute a zero numerator — two sentences of only
punctuation have identical (empty) content words and different token
counts, yet their scores are both zero, so the longer one does not score
strictly lower. -/
theorem C10_zero_content_counterexample :
    scoreNumerator mdl "Dogs bark. Cats purr." "?" =
      scoreNumerator mdl "Dogs bark. Cats purr." "? ?" ∧
    (mdl.wordTok "?").length < (mdl.wordTok "? ?").length ∧
    ¬ sentenceScore mdl "Dogs bark. Cats purr." "? ?" <
        sentenceScore mdl "Dogs bark. Cats purr." "?" := by
  refine ⟨by with_unfolding_all rfl, by decide, ?_⟩
  have h1 : sentenceScore mdl "Dogs bark. Cats purr." "? ?" = 0 := by
    with_unfolding_all rfl
  have h2 : sentenceScore mdl "Dogs bark. Cats purr." "?" = 0 := by
    with_unfolding_all rfl
  rw [h1, h2]
  exact lt_irrefl 0

/-- C10 (amended): the score denominator counts all word-tokenizer tokens
of the sentence, punctuation-only tokens included; hence of two sentences
whose retained content words sum to the same positive numerator, the one
with more tokens (for example extra punctuation tokens) receives a strictly
lower score. -/
theorem C10_length_penalty (T : Tokenizer) (text s1 s2 : String)
    (hnum : scoreNumerator T text s1 = scoreNumerator T text s2)
    (hpos : 0 < scoreNumerator T text s1)
    (hlen : (T.wordTok s1).length < (T.wordTok s2).length) :
    sentenceScore T text s2 < sentenceScore T text s1 := by
  unfold sentenceScore
  rw [← hnum]
  have ha : (0 : ℚ) < (scoreNumerator T text s1 : ℚ) := by exact_mod_cast hpos
  have hc : (0 : ℚ) < ((T.wordTok s1).length : ℚ) + 1 := by positivity
  have hcb : ((T.wordTok s1).length : ℚ) + 1 < ((T.wordTok s2).length : ℚ) + 1 := by
    exact_mod_cast Nat.add_lt_add_right hlen 1
  exact div_lt_div_of_pos_left ha hc hcb

/-- C10 (witness): a sentence with an extra comma token scores strictly
below a sentence with the same content words. -/
theorem C10_length_penalty_witness :
    sentenceScore mdl "Cats purr. Cats sleep." "Cats , purr ." <
      sentenceScore mdl "Cats purr. Cats sleep." "Cats purr." := by
  apply C10_length_penalty mdl "Cats purr. Cats sleep." "Cats purr." "Cats , purr ."
  · with_unfolding_all rfl
  · have hn : scoreNumerator mdl "Cats purr. Cats sleep." "Cats purr." = 3 := by
      with_unfolding_all rfl
    omega
  · have hl1 : (mdl.wordTok "Cats purr.").length = 3 := by with_unfolding_all rfl
    have hl2 : (mdl.wordTok "Cats , purr .").length = 4 := by with_unfolding_all rfl
    omega
